import Mathlib

/-!
Verification of the dominion-swarm orchestration core.

This file gives a shallow embedding, in Lean 4, of the parts of the
repository that carry real invariants: the `Task` lifecycle state machine
(`src/core/task/task.ts`), the `TaskManager` batch operations
(`src/core/task/task-manager.ts`), the `Policy` rule engine
(`src/core/policy/policy.ts`), the `WorkflowRunner` step sequencer
(`src/workflows/runner.ts`), the `Orchestrator` single-flight guard
(`src/core/orchestrator/orchestrator.ts`), and the resilience primitives
`RateLimiter` and `CircuitBreaker` (`src/util/retry.ts`).

Conventions of the embedding:
- JavaScript timestamps (`Date.now()`) are passed in explicitly as `Nat`
  arguments; each method that reads the clock takes a `now` parameter.
- Mutation of `this` becomes explicit state passing.  A method that can
  throw returns `Option Error × State`: on the throwing path the returned
  state is the pre-state, mirroring the source where every `throw`
  happens before any field assignment.
- Opaque JSON payloads (task inputs/outputs) are modelled as association
  lists of strings; the claims under study never inspect their contents.
- Logging calls (`logger.debug` etc.) have no observable effect on the
  modelled state and are dropped.
-/

namespace DominionSwarm

/-! ## Task — state machine (src/core/task/task.ts) -/

inductive TaskStatus where
  | pending
  | queued
  | running
  | completed
  | failed
  | cancelled
deriving DecidableEq

def TaskStatus.str : TaskStatus → String
  | .pending => "pending"
  | .queued => "queued"
  | .running => "running"
  | .completed => "completed"
  | .failed => "failed"
  | .cancelled => "cancelled"

inductive TaskPriority where
  | critical
  | high
  | normal
  | low
deriving DecidableEq

/-- Opaque key-value payload (`TaskInput` / `TaskOutput` in the source). -/
abbrev TaskPayload := List (String × String)

/-- Errors surfaced by the task layer.  The source throws plain `Error`
objects; the spec's taxonomy names the transition failure
`InvalidStateTransition` and the manager's lookup failure `TaskNotFound`,
and we keep the thrown message. -/
inductive TaskError where
  | invalidStateTransition (msg : String)
  | taskNotFound (id : String)
deriving DecidableEq

structure Task where
  id : String
  runId : String
  taskType : String
  parentId : Option String
  priority : TaskPriority
  maxRetries : Nat
  timeoutMs : Option Nat
  input : TaskPayload
  status : TaskStatus
  agentId : Option String
  output : Option TaskPayload
  error : Option String
  retries : Nat
  children : List String
  createdAt : Nat
  startedAt : Option Nat
  completedAt : Option Nat
deriving DecidableEq

structure TaskConfig where
  id : String
  runId : String
  taskType : String
  input : TaskPayload
  parentId : Option String := none
  agentId : Option String := none
  priority : Option TaskPriority := none
  maxRetries : Option Nat := none
  timeoutMs : Option Nat := none
deriving DecidableEq

/-- The `Task` constructor.  `config.id || uuidv4()` is modelled by the
caller supplying the (fresh) id; `config.timeoutMs || null` maps a
JavaScript-falsy `0` to `null`, and `config.agentId || null` and
`config.parentId || null` map the empty string to `null`. -/
def Task.create (config : TaskConfig) (now : Nat) : Task :=
  { id := config.id
    runId := config.runId
    taskType := config.taskType
    input := config.input
    parentId := match config.parentId with
      | some p => if p = "" then none else some p
      | none => none
    agentId := match config.agentId with
      | some a => if a = "" then none else some a
      | none => none
    priority := config.priority.getD .normal
    maxRetries := config.maxRetries.getD 3
    timeoutMs := match config.timeoutMs with
      | some t => if t = 0 then none else some t
      | none => none
    status := .pending
    output := none
    error := none
    retries := 0
    children := []
    createdAt := now
    startedAt := none
    completedAt := none }

def Task.isTerminal (t : Task) : Bool :=
  t.status = .completed ∨ t.status = .failed ∨ t.status = .cancelled

def Task.canRetry (t : Task) : Bool :=
  t.retries < t.maxRetries ∧ t.status = .failed

def Task.queue (t : Task) : Option TaskError × Task :=
  if t.status ≠ .pending then
    (some (.invalidStateTransition ("Cannot queue task in status: " ++ t.status.str)), t)
  else
    (none, { t with status := .queued })

/-- `start(agentId?)`.  `if (agentId)` in the source is JavaScript
truthiness: an absent or empty-string argument leaves `_agentId` alone. -/
def Task.start (t : Task) (agentId : Option String) (now : Nat) : Option TaskError × Task :=
  if ¬(t.status = .pending ∨ t.status = .queued) then
    (some (.invalidStateTransition ("Cannot start task in status: " ++ t.status.str)), t)
  else
    (none, { t with
      status := .running
      startedAt := some now
      agentId := match agentId with
        | some a => if a = "" then t.agentId else some a
        | none => t.agentId })

def Task.complete (t : Task) (output : TaskPayload) (now : Nat) : Option TaskError × Task :=
  if t.status ≠ .running then
    (some (.invalidStateTransition ("Cannot complete task in status: " ++ t.status.str)), t)
  else
    (none, { t with status := .completed, output := some output, completedAt := some now })

def Task.fail (t : Task) (error : String) (now : Nat) : Option TaskError × Task :=
  if t.status ≠ .running then
    (some (.invalidStateTransition ("Cannot fail task in status: " ++ t.status.str)), t)
  else
    (none, { t with status := .failed, error := some error, completedAt := some now })

def Task.cancel (t : Task) (now : Nat) : Option TaskError × Task :=
  if t.isTerminal then
    (some (.invalidStateTransition ("Cannot cancel task in status: " ++ t.status.str)), t)
  else
    (none, { t with status := .cancelled, completedAt := some now })

def Task.retry (t : Task) : Option TaskError × Task :=
  if ¬t.canRetry then
    (some (.invalidStateTransition
      ("Cannot retry task: status=" ++ t.status.str ++ ", retries=" ++
        toString t.retries ++ "/" ++ toString t.maxRetries)), t)
  else
    (none, { t with
      retries := t.retries + 1
      status := .pending
      error := none
      startedAt := none
      completedAt := none })

def Task.addChild (t : Task) (childId : String) : Task :=
  if t.children.contains childId then t else { t with children := t.children ++ [childId] }

/-- One call to a transition method, with the clock readings and the
arguments the caller passes. -/
inductive TaskCall where
  | queue
  | start (agentId : Option String) (now : Nat)
  | complete (output : TaskPayload) (now : Nat)
  | fail (error : String) (now : Nat)
  | cancel (now : Nat)
  | retry
deriving DecidableEq

def Task.applyCall (t : Task) : TaskCall → Option TaskError × Task
  | .queue => t.queue
  | .start a n => t.start a n
  | .complete o n => t.complete o n
  | .fail e n => t.fail e n
  | .cancel n => t.cancel n
  | .retry => t.retry

/-- The state after a sequence of calls; a call that throws leaves the
state unchanged (as proved below) and the sequence continues. -/
def Task.applyCalls (t : Task) (cs : List TaskCall) : Task :=
  cs.foldl (fun t c => (t.applyCall c).2) t

/-- The guard each transition method checks, exactly as the claim lists
them: `queue` from `pending`; `start` from `pending` or `queued`;
`complete`/`fail` from `running`; `cancel` from non-terminal; `retry`
only when `canRetry()`. -/
def Task.transitionLegal (t : Task) : TaskCall → Bool
  | .queue => t.status = .pending
  | .start _ _ => t.status = .pending ∨ t.status = .queued
  | .complete _ _ => t.status = .running
  | .fail _ _ => t.status = .running
  | .cancel _ => ¬t.isTerminal
  | .retry => t.canRetry

/-- The task obtained by creating one from `cfg` at time `now` and then
performing the calls `cs` in order. -/
def Task.runCalls (cfg : TaskConfig) (now : Nat) (cs : List TaskCall) : Task :=
  Task.applyCalls (Task.create cfg now) cs

theorem Task.applyCalls_cons (t : Task) (c : TaskCall) (cs : List TaskCall) :
    Task.applyCalls t (c :: cs) = Task.applyCalls (t.applyCall c).2 cs := rfl

theorem Task.applyCalls_append (t : Task) (cs ds : List TaskCall) :
    Task.applyCalls t (cs ++ ds) = Task.applyCalls (Task.applyCalls t cs) ds :=
  List.foldl_append ..

/-- C1: an illegal transition call throws `InvalidStateTransition` and the
post-state equals the pre-state. -/
theorem task_illegal_transition_rejects_and_preserves_state
    (t : Task) (c : TaskCall) (h : t.transitionLegal c = false) :
    (∃ m, (t.applyCall c).1 = some (TaskError.invalidStateTransition m))
      ∧ (t.applyCall c).2 = t := by
  cases c <;>
    simp only [Task.transitionLegal, decide_eq_false_iff_not] at h <;>
    simp_all [Task.applyCall, Task.queue, Task.start, Task.complete, Task.fail,
      Task.cancel, Task.retry]

/-- A concrete completed task used to witness the illegal-transition
theorem: after `start`; `complete`, a further `queue()` is illegal. -/
def taskC1 : Task :=
  Task.runCalls { id := "t1", runId := "r1", taskType := "observe:watch", input := [] } 0
    [.start (some "agent-1") 1, .complete [("result", "ok")] 2]

theorem task_illegal_transition_witness :
    (∃ m, (taskC1.applyCall .queue).1 = some (TaskError.invalidStateTransition m))
      ∧ (taskC1.applyCall .queue).2 = taskC1 :=
  task_illegal_transition_rejects_and_preserves_state taskC1 .queue (by decide)

/-! ### C6 — retry bound -/

theorem Task.applyCall_maxRetries (t : Task) (c : TaskCall) :
    ((t.applyCall c).2).maxRetries = t.maxRetries := by
  cases c <;>
    simp [Task.applyCall, Task.queue, Task.start, Task.complete, Task.fail,
      Task.cancel, Task.retry] <;>
    split <;> rfl

theorem Task.applyCall_retries_le (t : Task) (c : TaskCall)
    (h : t.retries ≤ t.maxRetries) : ((t.applyCall c).2).retries ≤ t.maxRetries := by
  cases c <;>
    simp [Task.applyCall, Task.queue, Task.start, Task.complete, Task.fail,
      Task.cancel, Task.retry] <;>
    split <;> simp_all [Task.canRetry] <;> omega

/-- One `start`; `fail`; `retry` round trip starting from a pending task. -/
def retryCycleCalls : Nat → List TaskCall
  | 0 => []
  | n + 1 => .start none 0 :: .fail "err" 0 :: .retry :: retryCycleCalls n

theorem Task.cycle_step (t : Task) (hs : t.status = .pending) (he : t.error = none)
    (hst : t.startedAt = none) (hc : t.completedAt = none)
    (hr : t.retries < t.maxRetries) :
    Task.applyCalls t [.start none 0, .fail "err" 0, .retry]
      = { t with retries := t.retries + 1 } := by
  cases t
  simp_all [Task.applyCalls, Task.applyCall, Task.start, Task.fail, Task.retry,
    Task.canRetry]

theorem Task.cycles_pending (t : Task) (n : Nat) (hs : t.status = .pending)
    (he : t.error = none) (hst : t.startedAt = none) (hc : t.completedAt = none)
    (hr : t.retries + n ≤ t.maxRetries) :
    Task.applyCalls t (retryCycleCalls n) = { t with retries := t.retries + n } := by
  induction n generalizing t with
  | zero =>
    cases t
    simp [Task.applyCalls, retryCycleCalls]
  | succ n ih =>
    have hstep := Task.cycle_step t hs he hst hc (by omega)
    have hsplit : retryCycleCalls (n + 1)
        = [TaskCall.start none 0, TaskCall.fail "err" 0, TaskCall.retry]
          ++ retryCycleCalls n := rfl
    rw [hsplit, Task.applyCalls_append, hstep,
      ih { t with retries := t.retries + 1 } hs he hst hc
        (by show t.retries + 1 + n ≤ t.maxRetries; omega)]
    cases t
    simp only [Task.mk.injEq, and_true, true_and]
    omega

/-- C6: the retry counter never exceeds `maxRetries` under any call
sequence; `fail()` never changes the counter; and after `maxRetries`
fail-retry cycles followed by one more failure, `canRetry()` is false and
a further `retry()` throws and leaves the task unchanged. -/
theorem task_retry_bound :
    (∀ (cfg : TaskConfig) (now : Nat) (cs : List TaskCall),
        (Task.runCalls cfg now cs).retries ≤ (Task.runCalls cfg now cs).maxRetries)
    ∧ (∀ (t : Task) (e : String) (n : Nat), ((t.fail e n).2).retries = t.retries)
    ∧ (∀ (cfg : TaskConfig) (now : Nat),
        (Task.runCalls cfg now
            (retryCycleCalls (Task.create cfg now).maxRetries
              ++ [.start none 0, .fail "err" 0])).canRetry = false
        ∧ (∃ m, ((Task.runCalls cfg now
            (retryCycleCalls (Task.create cfg now).maxRetries
              ++ [.start none 0, .fail "err" 0])).applyCall .retry).1
              = some (TaskError.invalidStateTransition m))
        ∧ ((Task.runCalls cfg now
            (retryCycleCalls (Task.create cfg now).maxRetries
              ++ [.start none 0, .fail "err" 0])).applyCall .retry).2
            = Task.runCalls cfg now
                (retryCycleCalls (Task.create cfg now).maxRetries
                  ++ [.start none 0, .fail "err" 0])) := by
  refine ⟨?_, ?_, ?_⟩
  · intro cfg now cs
    have inv : ∀ (t : Task) (cs : List TaskCall),
        t.retries ≤ t.maxRetries
          → (Task.applyCalls t cs).retries ≤ (Task.applyCalls t cs).maxRetries := by
      intro t cs
      induction cs generalizing t with
      | nil => intro h; simpa [Task.applyCalls] using h
      | cons c cs ih =>
        intro h
        rw [Task.applyCalls_cons]
        exact ih _ (by
          have h1 := Task.applyCall_retries_le t c h
          have h2 := Task.applyCall_maxRetries t c
          omega)
    exact inv _ cs (by simp [Task.create])
  · intro t e n
    simp [Task.fail]
    split <;> rfl
  · intro cfg now
    have hcycles := Task.cycles_pending (Task.create cfg now)
      (Task.create cfg now).maxRetries rfl rfl rfl rfl
      (by show 0 + _ ≤ _; omega)
    simp only [Task.runCalls, Task.applyCalls_append, hcycles]
    simp [Task.applyCalls, Task.applyCall, Task.start, Task.fail, Task.retry,
      Task.canRetry, Task.create]

/-! ### C8 — output/error in terminal states

`cancel()` records only the completion time: it sets neither `_output`
nor `_error`, so a cancelled task has both fields null.  The invariant
that actually holds is proved below; the counterexample shows the
claimed "exactly one of output/error is set in every terminal state"
fails on a cancelled task. -/

/-- A task cancelled straight from `pending`. -/
def taskCancelled : Task :=
  Task.runCalls { id := "t2", runId := "r1", taskType := "observe:watch", input := [] } 0
    [.cancel 5]

theorem task_cancelled_has_neither_output_nor_error :
    taskCancelled.isTerminal = true
      ∧ taskCancelled.output = none ∧ taskCancelled.error = none := by
  refine ⟨rfl, rfl, rfl⟩

/-- Field discipline that every reachable task state satisfies. -/
def Task.outputErrorInv (t : Task) : Prop :=
  (t.status = .completed → t.output.isSome ∧ t.error = none)
    ∧ (t.status = .failed → t.error.isSome ∧ t.output = none)
    ∧ (t.status = .cancelled → t.output = none ∧ t.error = none)
    ∧ ((t.status = .pending ∨ t.status = .queued ∨ t.status = .running)
        → t.output = none ∧ t.error = none)

theorem Task.outputErrorInv_create (cfg : TaskConfig) (now : Nat) :
    (Task.create cfg now).outputErrorInv := by
  simp [Task.create, Task.outputErrorInv]

theorem Task.outputErrorInv_applyCall (t : Task) (c : TaskCall)
    (h : t.outputErrorInv) : ((t.applyCall c).2).outputErrorInv := by
  obtain ⟨h1, h2, h3, h4⟩ := h
  cases c <;>
    simp only [Task.applyCall, Task.queue, Task.start, Task.complete, Task.fail,
      Task.cancel, Task.retry, Task.isTerminal, Task.canRetry] <;>
    split <;>
    simp_all [Task.outputErrorInv] <;>
    rcases ht : t.status <;> simp_all

/-- C8 (amended): in every reachable state, a completed task has output
set and error null; a failed task has error set and output null; a
cancelled task has neither set. -/
theorem task_terminal_output_error_discipline
    (cfg : TaskConfig) (now : Nat) (cs : List TaskCall) :
    ((Task.runCalls cfg now cs).status = .completed
        → (Task.runCalls cfg now cs).output.isSome
          ∧ (Task.runCalls cfg now cs).error = none)
      ∧ ((Task.runCalls cfg now cs).status = .failed
        → (Task.runCalls cfg now cs).error.isSome
          ∧ (Task.runCalls cfg now cs).output = none)
      ∧ ((Task.runCalls cfg now cs).status = .cancelled
        → (Task.runCalls cfg now cs).output = none
          ∧ (Task.runCalls cfg now cs).error = none) := by
  have inv : ∀ (t : Task) (cs : List TaskCall),
      t.outputErrorInv → (Task.applyCalls t cs).outputErrorInv := by
    intro t cs
    induction cs generalizing t with
    | nil => exact fun h => h
    | cons c cs ih =>
      intro h
      rw [Task.applyCalls_cons]
      exact ih _ (Task.outputErrorInv_applyCall t c h)
  obtain ⟨h1, h2, h3, _⟩ :=
    inv (Task.create cfg now) cs (Task.outputErrorInv_create cfg now)
  exact ⟨h1, h2, h3⟩

/-- Witness for the amended C8 theorem at a concrete completed task. -/
theorem task_terminal_output_error_witness :
    (Task.runCalls { id := "t3", runId := "r1", taskType := "a:b", input := [] } 0
        [.start none 1, .complete [("k", "v")] 2]).output.isSome
      ∧ (Task.runCalls { id := "t3", runId := "r1", taskType := "a:b", input := [] } 0
        [.start none 1, .complete [("k", "v")] 2]).error = none :=
  (task_terminal_output_error_discipline
    { id := "t3", runId := "r1", taskType := "a:b", input := [] } 0
    [.start none 1, .complete [("k", "v")] 2]).1 rfl

/-! ## TaskManager (src/core/task/task-manager.ts)

The manager's `tasks` map (JavaScript `Map`, insertion-ordered, fresh
uuid keys) is modelled as a list in insertion order; `tasksByRun` is an
insertion-ordered index over it and is recovered by filtering on
`runId`.  Database mirroring (`syncToDb`) writes to the external storage
collaborator and does not affect the in-memory state modelled here. -/

structure TaskManager where
  tasks : List Task
deriving DecidableEq

/-- `createTask`: construct, index, and link to the parent's child list
(`parent.addChild` when the parent id is present in the map). -/
def TaskManager.createTask (tm : TaskManager) (cfg : TaskConfig) (now : Nat) :
    TaskManager × Task :=
  let task := Task.create cfg now
  let tasks₁ := tm.tasks ++ [task]
  let tasks₂ := match task.parentId with
    | some pid => tasks₁.map (fun u => if u.id = pid then u.addChild task.id else u)
    | none => tasks₁
  ({ tasks := tasks₂ }, task)

def TaskManager.getTasksByRun (tm : TaskManager) (runId : String) : List Task :=
  tm.tasks.filter (fun t => t.runId = runId)

/-- `cancelRunTasks`: iterate the run's tasks in order; cancel each
non-terminal one and count it.  Tasks of other runs are untouched, so
the loop over `getTasksByRun(runId)` is rendered as a single ordered
pass over the whole map that rewrites exactly the run's non-terminal
entries. -/
def TaskManager.cancelRunTasks (tm : TaskManager) (runId : String) (now : Nat) :
    TaskManager × Nat :=
  let r := tm.tasks.foldl
    (fun (acc : List Task × Nat) t =>
      if t.runId == runId && !t.isTerminal then (acc.1 ++ [(t.cancel now).2], acc.2 + 1)
      else (acc.1 ++ [t], acc.2))
    ([], 0)
  ({ tasks := r.1 }, r.2)

/-! ### C7 — cancellation cascade

`cancelRunTasks` does not recurse through `children` (that recursion
lives only in `cancelTask`): it cancels precisely the non-terminal tasks
whose own `runId` matches.  A non-terminal descendant belonging to a
different run is left untouched, refuting the claimed "1 + N descendants"
count.  The counterexample below has task `A` in run `r1` with one
non-terminal child `B` in run `r2`: the call cancels 1 task, not 2, and
`B` stays `pending`. -/

def tmC7 : TaskManager :=
  (((TaskManager.mk []).createTask
      { id := "A", runId := "r1", taskType := "a:b", input := [] } 0).1.createTask
      { id := "B", runId := "r2", taskType := "a:b", input := [],
        parentId := some "A" } 1).1

theorem cancelRunTasks_misses_cross_run_descendant :
    ((tmC7.tasks.find? (fun t => t.id = "A")).map Task.children = some ["B"])
      ∧ ((tmC7.tasks.find? (fun t => t.id = "B")).map Task.status
          = some TaskStatus.pending)
      ∧ ((tmC7.cancelRunTasks "r1" 5).2 = 1)
      ∧ (((tmC7.cancelRunTasks "r1" 5).1.tasks.find? (fun t => t.id = "B")).map
          Task.status = some TaskStatus.pending) := by
  refine ⟨rfl, rfl, rfl, rfl⟩

theorem TaskManager.cancelRun_go (runId : String) (now : Nat) (l : List Task)
    (acc : List Task) (k : Nat) :
    l.foldl
      (fun (acc : List Task × Nat) t =>
        if t.runId == runId && !t.isTerminal then (acc.1 ++ [(t.cancel now).2], acc.2 + 1)
        else (acc.1 ++ [t], acc.2))
      (acc, k)
    = (acc ++ l.map (fun t =>
          if t.runId == runId && !t.isTerminal then (t.cancel now).2 else t),
        k + (l.filter (fun t => t.runId == runId && !t.isTerminal)).length) := by
  induction l generalizing acc k with
  | nil => simp
  | cons t l ih =>
    simp only [List.foldl_cons, List.map_cons, List.filter_cons]
    by_cases h : (t.runId == runId && !t.isTerminal) = true
    · rw [if_pos h, if_pos h, if_pos h, ih]
      simp only [List.append_assoc, List.singleton_append, List.length_cons,
        Prod.mk.injEq]
      exact ⟨trivial, by omega⟩
    · rw [if_neg h, if_neg h, if_neg h, ih]
      simp

/-- C7 (amended): `cancelRunTasks(runId)` cancels exactly the
non-terminal tasks whose own `runId` is the given run — descendants are
affected only insofar as they belong to the same run — returns that
count, and leaves every already-terminal task and every task of another
run unchanged. -/
theorem cancelRunTasks_cancels_exactly_runs_nonterminal_tasks
    (tm : TaskManager) (runId : String) (now : Nat) :
    (tm.cancelRunTasks runId now).2
        = (tm.tasks.filter (fun t => t.runId == runId && !t.isTerminal)).length
      ∧ (tm.cancelRunTasks runId now).1.tasks
        = tm.tasks.map (fun t =>
            if t.runId == runId && !t.isTerminal then (t.cancel now).2 else t) := by
  simp only [TaskManager.cancelRunTasks, TaskManager.cancelRun_go]
  exact ⟨by simp, by simp⟩

/-! ## RateLimiter (src/util/retry.ts)

State is the list of recorded request timestamps; `maxRequests` and
`windowMs` are configuration.  `Date.now()` is the explicit `now`
argument.  `now - t` is JavaScript number subtraction on timestamps;
with monotone clocks `t ≤ now` holds for every recorded entry, and the
truncated `Nat` subtraction used here agrees with it whenever
`windowMs > 0`. -/

structure RateLimiterOptions where
  maxRequests : Nat
  windowMs : Nat
deriving DecidableEq

/-- `cleanup()`: drop timestamps that have aged out of the window. -/
def RateLimiter.cleanup (opts : RateLimiterOptions) (now : Nat) (requests : List Nat) :
    List Nat :=
  requests.filter (fun t => now - t < opts.windowMs)

/-- `remaining()`: cleanup, then report `Math.max(0, maxRequests - length)`.
Returns the post-call request list together with the reported value
(`Nat` subtraction is already floored at 0). -/
def RateLimiter.remaining (opts : RateLimiterOptions) (now : Nat) (requests : List Nat) :
    List Nat × Nat :=
  let requests' := RateLimiter.cleanup opts now requests
  (requests', opts.maxRequests - requests'.length)

/-! ### C9 — `remaining()` reports capacity without observable mutation

The only internal change `remaining()` makes is the `cleanup()` pruning
of already-expired timestamps; at the call's own time and at every later
time the set of in-window timestamps — the limiter's entire observable
state — is unchanged. -/

/-- C9: the reported value is `maxRequests` minus the number of in-window
timestamps, floored at zero, and for every present-or-later clock reading
the in-window timestamps of the post-state equal those of the pre-state:
the observable state of the limiter is unchanged. -/
theorem rateLimiter_remaining_reports_without_mutating
    (opts : RateLimiterOptions) (now : Nat) (requests : List Nat) :
    (RateLimiter.remaining opts now requests).2
        = ((opts.maxRequests : Int)
            - ((RateLimiter.cleanup opts now requests).length : Int)).toNat
      ∧ ∀ now', now ≤ now'
        → RateLimiter.cleanup opts now' (RateLimiter.remaining opts now requests).1
            = RateLimiter.cleanup opts now' requests := by
  constructor
  · show opts.maxRequests - (RateLimiter.cleanup opts now requests).length = _
    omega
  · intro now' h
    show RateLimiter.cleanup opts now' (RateLimiter.cleanup opts now requests)
      = RateLimiter.cleanup opts now' requests
    simp only [RateLimiter.cleanup, List.filter_filter]
    apply List.filter_congr
    intro t _
    by_cases ht : now' - t < opts.windowMs
    · have hw : now - t < opts.windowMs := by omega
      simp [ht, hw]
    · simp [ht]

theorem rateLimiter_remaining_witness :
    (RateLimiter.remaining ⟨5, 1000⟩ 1500 [100, 600, 1200]).2
        = ((5 : Int) - ((RateLimiter.cleanup ⟨5, 1000⟩ 1500 [100, 600, 1200]).length : Int)).toNat
      ∧ RateLimiter.cleanup ⟨5, 1000⟩ 2000 (RateLimiter.remaining ⟨5, 1000⟩ 1500 [100, 600, 1200]).1
          = RateLimiter.cleanup ⟨5, 1000⟩ 2000 [100, 600, 1200] :=
  ⟨(rateLimiter_remaining_reports_without_mutating ⟨5, 1000⟩ 1500 [100, 600, 1200]).1,
    (rateLimiter_remaining_reports_without_mutating ⟨5, 1000⟩ 1500 [100, 600, 1200]).2
      2000 (by decide)⟩

/-! ## CircuitBreaker (src/util/retry.ts)

`execute(fn)` is modelled with the guarded function's outcome passed in
as a boolean (`ok = true`: `fn` resolves; `ok = false`: `fn` rejects) and
the clock reading as `now`.  The result records whether `fn` was invoked
at all — an `open` rejection (`throw new Error('Circuit breaker is
open')`, the spec's CircuitOpenError) never runs `fn`. -/

inductive CircuitState where
  | closed
  | open
  | halfOpen
deriving DecidableEq

structure CircuitBreakerOptions where
  failureThreshold : Nat
  resetTimeoutMs : Nat
  halfOpenRequests : Nat := 1
deriving DecidableEq

structure CircuitBreaker where
  state : CircuitState
  failures : Nat
  lastFailureTime : Nat
  halfOpenSuccesses : Nat
deriving DecidableEq

def CircuitBreaker.init : CircuitBreaker :=
  { state := .closed, failures := 0, lastFailureTime := 0, halfOpenSuccesses := 0 }

inductive ExecOutcome where
  /-- rejected with CircuitOpenError; `fn` was not invoked. -/
  | rejectedOpen
  /-- `fn` was invoked and resolved. -/
  | invokedOk
  /-- `fn` was invoked and rejected; its error is re-thrown. -/
  | invokedErr
deriving DecidableEq

def CircuitBreaker.onSuccess (opts : CircuitBreakerOptions) (cb : CircuitBreaker) :
    CircuitBreaker :=
  if cb.state = .halfOpen then
    let h := cb.halfOpenSuccesses + 1
    if h ≥ opts.halfOpenRequests then
      { cb with halfOpenSuccesses := h, state := .closed, failures := 0 }
    else
      { cb with halfOpenSuccesses := h }
  else
    { cb with failures := 0 }

def CircuitBreaker.onFailure (opts : CircuitBreakerOptions) (cb : CircuitBreaker)
    (now : Nat) : CircuitBreaker :=
  let f := cb.failures + 1
  if cb.state = .halfOpen ∨ f ≥ opts.failureThreshold then
    { cb with failures := f, lastFailureTime := now, state := .open }
  else
    { cb with failures := f, lastFailureTime := now }

def CircuitBreaker.execute (opts : CircuitBreakerOptions) (cb : CircuitBreaker)
    (now : Nat) (ok : Bool) : ExecOutcome × CircuitBreaker :=
  if cb.state = .open then
    if now - cb.lastFailureTime ≥ opts.resetTimeoutMs then
      let cb' := { cb with state := .halfOpen, halfOpenSuccesses := 0 }
      if ok then (.invokedOk, cb'.onSuccess opts) else (.invokedErr, cb'.onFailure opts now)
    else
      (.rejectedOpen, cb)
  else
    if ok then (.invokedOk, cb.onSuccess opts) else (.invokedErr, cb.onFailure opts now)

def CircuitBreaker.reset (cb : CircuitBreaker) : CircuitBreaker :=
  { cb with state := .closed, failures := 0, halfOpenSuccesses := 0 }

/-- Folding a list of failing calls (timestamps in order) through
`execute`. -/
def CircuitBreaker.runFailures (opts : CircuitBreakerOptions) (cb : CircuitBreaker)
    (times : List Nat) : CircuitBreaker :=
  times.foldl (fun cb t => (CircuitBreaker.execute opts cb t false).2) cb

theorem CircuitBreaker.open_stays_open_on_failures (opts : CircuitBreakerOptions)
    (cb : CircuitBreaker) (times : List Nat) (h : cb.state = .open) :
    (CircuitBreaker.runFailures opts cb times).state = .open := by
  induction times generalizing cb with
  | nil => exact h
  | cons t ts ih =>
    show (CircuitBreaker.runFailures opts (CircuitBreaker.execute opts cb t false).2 ts).state
      = .open
    apply ih
    by_cases hel : opts.resetTimeoutMs ≤ t - cb.lastFailureTime
    · simp [CircuitBreaker.execute, h, hel, CircuitBreaker.onFailure]
    · simp [CircuitBreaker.execute, h, hel]

theorem CircuitBreaker.closed_failures_open (opts : CircuitBreakerOptions)
    (cb : CircuitBreaker) (times : List Nat) (h : cb.state = .closed)
    (hlen : cb.failures + times.length = opts.failureThreshold)
    (hlt : cb.failures < opts.failureThreshold) :
    (CircuitBreaker.runFailures opts cb times).state = .open := by
  induction times generalizing cb with
  | nil => simp at hlen; omega
  | cons t ts ih =>
    show (CircuitBreaker.runFailures opts (CircuitBreaker.execute opts cb t false).2 ts).state
      = .open
    by_cases hth : cb.failures + 1 ≥ opts.failureThreshold
    · have hstep : (CircuitBreaker.execute opts cb t false).2
          = { cb with failures := cb.failures + 1, lastFailureTime := t
                      state := .open } := by
        simp [CircuitBreaker.execute, CircuitBreaker.onFailure, h, hth]
      rw [hstep]
      exact CircuitBreaker.open_stays_open_on_failures opts _ ts rfl
    · have hstep : (CircuitBreaker.execute opts cb t false).2
          = { cb with failures := cb.failures + 1, lastFailureTime := t } := by
        simp [CircuitBreaker.execute, CircuitBreaker.onFailure, h, hth]
      rw [hstep]
      apply ih
      · exact h
      · show cb.failures + 1 + ts.length = opts.failureThreshold
        simp at hlen
        omega
      · show cb.failures + 1 < opts.failureThreshold
        omega

/-- C5: the circuit-breaker cycle.  From the initial closed state,
`failureThreshold` consecutive failing calls open the breaker; while
open and before `resetTimeoutMs` has elapsed since the last failure, a
call is rejected with CircuitOpenError, the guarded function is not
invoked, and the state is untouched; once the timeout has elapsed the
breaker attempts the function from `half-open`, and with
`halfOpenRequests = 1` a success closes it (clearing the failure
counter) while a failure — from the elapsed-open attempt or from any
half-open state — reopens it and resets the failure clock to `now`. -/
theorem circuit_breaker_cycle (opts : CircuitBreakerOptions) :
    (∀ times : List Nat,
      opts.failureThreshold ≥ 1 → times.length = opts.failureThreshold
      → (CircuitBreaker.runFailures opts .init times).state = .open)
    ∧ (∀ (cb : CircuitBreaker) (now : Nat) (ok : Bool),
      cb.state = .open → now - cb.lastFailureTime < opts.resetTimeoutMs
      → CircuitBreaker.execute opts cb now ok = (.rejectedOpen, cb))
    ∧ (∀ (cb : CircuitBreaker) (now : Nat),
      cb.state = .open → now - cb.lastFailureTime ≥ opts.resetTimeoutMs
      → opts.halfOpenRequests = 1
      → CircuitBreaker.execute opts cb now true
          = (.invokedOk, { cb with state := .closed, failures := 0
                                   halfOpenSuccesses := 1 }))
    ∧ (∀ (cb : CircuitBreaker) (now : Nat),
      cb.state = .halfOpen → opts.halfOpenRequests = 1
      → CircuitBreaker.execute opts cb now true
          = (.invokedOk, { cb with state := .closed, failures := 0
                                   halfOpenSuccesses := cb.halfOpenSuccesses + 1 }))
    ∧ (∀ (cb : CircuitBreaker) (now : Nat),
      cb.state = .halfOpen
      → CircuitBreaker.execute opts cb now false
          = (.invokedErr, { cb with state := .open, failures := cb.failures + 1
                                    lastFailureTime := now }))
    ∧ (∀ (cb : CircuitBreaker) (now : Nat),
      cb.state = .open → now - cb.lastFailureTime ≥ opts.resetTimeoutMs
      → CircuitBreaker.execute opts cb now false
          = (.invokedErr, { cb with state := .open, failures := cb.failures + 1
                                    lastFailureTime := now, halfOpenSuccesses := 0 })) := by
  refine ⟨?_, ?_, ?_, ?_, ?_, ?_⟩
  · intro times h1 hlen
    exact CircuitBreaker.closed_failures_open opts .init times rfl
      (by simpa [CircuitBreaker.init] using hlen)
      (by simpa [CircuitBreaker.init] using h1)
  · intro cb now ok h ht
    simp [CircuitBreaker.execute, h, Nat.not_le.mpr ht]
  · intro cb now h ht hh
    simp [CircuitBreaker.execute, h, ht, CircuitBreaker.onSuccess, hh]
  · intro cb now h hh
    simp [CircuitBreaker.execute, h, CircuitBreaker.onSuccess, hh]
  · intro cb now h
    simp [CircuitBreaker.execute, h, CircuitBreaker.onFailure]
  · intro cb now h ht
    simp [CircuitBreaker.execute, h, ht, CircuitBreaker.onFailure]

/-- Witness for the circuit-breaker cycle at `failureThreshold = 2`,
`resetTimeoutMs = 100`, `halfOpenRequests = 1`: two failures open the
breaker; a call at `now = 50` is rejected without invoking the function;
a successful call at `now = 150` closes it again. -/
theorem circuit_breaker_cycle_witness :
    ((CircuitBreaker.runFailures ⟨2, 100, 1⟩ .init [10, 20]).state = .open)
      ∧ (CircuitBreaker.execute ⟨2, 100, 1⟩
          (CircuitBreaker.runFailures ⟨2, 100, 1⟩ .init [10, 20]) 50 true
          = (.rejectedOpen, CircuitBreaker.runFailures ⟨2, 100, 1⟩ .init [10, 20]))
      ∧ (CircuitBreaker.execute ⟨2, 100, 1⟩
          (CircuitBreaker.runFailures ⟨2, 100, 1⟩ .init [10, 20]) 150 true
          = (.invokedOk,
            { CircuitBreaker.runFailures ⟨2, 100, 1⟩ .init [10, 20] with
                state := .closed, failures := 0, halfOpenSuccesses := 1 })) :=
  ⟨(circuit_breaker_cycle ⟨2, 100, 1⟩).1 [10, 20] (by decide) (by decide),
    (circuit_breaker_cycle ⟨2, 100, 1⟩).2.1 _ 50 true (by decide) (by decide),
    (circuit_breaker_cycle ⟨2, 100, 1⟩).2.2.1 _ 150 (by decide) (by decide) rfl⟩

/-- The closed-state failure counter stays strictly below the threshold. -/
def CircuitBreaker.closedInv (opts : CircuitBreakerOptions) (cb : CircuitBreaker) : Prop :=
  cb.state = .closed → cb.failures < opts.failureThreshold

/-- C10: with `failureThreshold ≥ 1`, `state = closed → failures <
failureThreshold` holds initially and is preserved by every `execute`
call (either outcome of the guarded function) and by `reset`. -/
theorem circuit_breaker_closed_failures_below_threshold
    (opts : CircuitBreakerOptions) (h1 : 1 ≤ opts.failureThreshold) :
    CircuitBreaker.closedInv opts .init
    ∧ (∀ (cb : CircuitBreaker) (now : Nat) (ok : Bool),
        CircuitBreaker.closedInv opts cb
        → CircuitBreaker.closedInv opts (CircuitBreaker.execute opts cb now ok).2)
    ∧ (∀ cb : CircuitBreaker, CircuitBreaker.closedInv opts (cb.reset)) := by
  refine ⟨fun _ => by simpa [CircuitBreaker.init] using h1,
    ?_, fun cb => fun _ => by simpa [CircuitBreaker.reset] using h1⟩
  intro cb now ok h
  simp only [CircuitBreaker.closedInv] at h ⊢
  rcases hs : cb.state <;> rcases ok <;>
    simp only [CircuitBreaker.execute, CircuitBreaker.onSuccess,
      CircuitBreaker.onFailure, hs] <;>
    (repeat' split) <;>
    intro hpost <;>
    simp_all <;>
    omega

theorem circuit_breaker_closed_inv_witness :
    CircuitBreaker.closedInv ⟨3, 100, 1⟩ .init
      ∧ CircuitBreaker.closedInv ⟨3, 100, 1⟩
          (CircuitBreaker.execute ⟨3, 100, 1⟩ .init 10 false).2 :=
  ⟨(circuit_breaker_closed_failures_below_threshold ⟨3, 100, 1⟩ (by decide)).1,
    (circuit_breaker_closed_failures_below_threshold ⟨3, 100, 1⟩ (by decide)).2.1
      .init 10 false
      (circuit_breaker_closed_failures_below_threshold ⟨3, 100, 1⟩ (by decide)).1⟩

/-! ## Policy (src/core/policy/policy.ts)

Rule conditions compare JavaScript values; the value space needed by the
engine (strings, numbers, booleans, string arrays, and
`undefined` for an absent parameter) is modelled by `JsValue`, with
numbers as integers.  The regular-expression test used by the `matches`
operator is an external facility and is threaded through as an opaque
boolean function `rm pattern input` standing for
`new RegExp(pattern).test(input)`. -/

inductive JsValue where
  | str (s : String)
  | num (n : Int)
  | boolean (b : Bool)
  | listStr (l : List String)
  | jsUndefined
deriving DecidableEq

/-- JavaScript `String(v)` for the values above. -/
def JsValue.toStr : JsValue → String
  | .str s => s
  | .num n => toString n
  | .boolean b => if b then "true" else "false"
  | .listStr l => String.intercalate "," l
  | .jsUndefined => "undefined"

/-- JavaScript strict equality `===` on the modelled values.  Arrays are
compared by reference in JavaScript; two separately-constructed arrays
are never strictly equal, so list values compare unequal here. -/
def JsValue.strictEq : JsValue → JsValue → Bool
  | .str a, .str b => a = b
  | .num a, .num b => a = b
  | .boolean a, .boolean b => a = b
  | .jsUndefined, .jsUndefined => true
  | _, _ => false

/-- JavaScript numeric coercion of the comparison operand, as used by
`value > (condition.value as number)`: numbers stand for themselves and
booleans coerce to 0/1; strings and arrays are conservatively treated as
non-numeric (NaN), making the relational comparison false. -/
def JsValue.toNum : JsValue → Option Int
  | .num n => some n
  | .boolean b => some (if b then 1 else 0)
  | _ => none

inductive PolicyAction where
  | allow
  | deny
  | requireApproval
deriving DecidableEq

inductive ConditionType where
  | tool
  | role
  | time
  | rate
  | custom
deriving DecidableEq

inductive ConditionOperator where
  | equals
  | contains
  | matches
  | gt
  | lt
  | gte
  | lte
deriving DecidableEq

structure PolicyCondition where
  ctype : ConditionType
  op : ConditionOperator
  value : JsValue
  field : Option String := none
deriving DecidableEq

structure PolicyRule where
  id : String
  name : String
  description : Option String := none
  condition : PolicyCondition
  action : PolicyAction
  priority : Int
deriving DecidableEq

structure Agent where
  id : String
  role : String
deriving DecidableEq

abbrev CallParams := List (String × JsValue)

/-- `params[field]`: `undefined` when the key is absent. -/
def CallParams.get (params : CallParams) (field : String) : JsValue :=
  match params.find? (fun p => p.1 = field) with
  | some p => p.2
  | none => .jsUndefined

/-- JavaScript `s.includes(sub)`. -/
def strIncludes (s sub : String) : Bool :=
  decide (sub.toList <:+: s.toList)

def evaluateToolCondition (rm : String → String → Bool) (c : PolicyCondition)
    (toolName : String) : Bool :=
  match c.op with
  | .equals => c.value.strictEq (.str toolName)
  | .contains => strIncludes toolName c.value.toStr
  | .matches => rm c.value.toStr toolName
  | _ => false

def evaluateRoleCondition (c : PolicyCondition) (role : String) : Bool :=
  match c.op with
  | .equals => c.value.strictEq (.str role)
  | .contains =>
    match c.value with
    | .listStr l => l.contains role
    | _ => false
  | _ => false

def evaluateCustomCondition (c : PolicyCondition) (params : CallParams) : Bool :=
  match c.field with
  | none => false
  | some f =>
    let value := params.get f
    match c.op with
    | .equals => value.strictEq c.value
    | .gt =>
      match value, c.value.toNum with
      | .num a, some b => a > b
      | _, _ => false
    | .lt =>
      match value, c.value.toNum with
      | .num a, some b => a < b
      | _, _ => false
    | .gte =>
      match value, c.value.toNum with
      | .num a, some b => a ≥ b
      | _, _ => false
    | .lte =>
      match value, c.value.toNum with
      | .num a, some b => a ≤ b
      | _, _ => false
    | _ => false

/-- `evaluateCondition`: dispatch on the condition type; `time` and
`rate` fall through the `default` arm and never match. -/
def evaluateCondition (rm : String → String → Bool) (c : PolicyCondition)
    (agent : Agent) (toolName : String) (params : CallParams) : Bool :=
  match c.ctype with
  | .tool => evaluateToolCondition rm c toolName
  | .role => evaluateRoleCondition c agent.role
  | .custom => evaluateCustomCondition c params
  | _ => false

/-- Stable insertion of a rule into a list already sorted by descending
priority: the new rule goes after every rule of greater-or-equal
priority.  This is what JavaScript's (stable, per ES2019)
`Array.prototype.sort` with comparator `(a, b) => b.priority - a.priority`
does to a sorted array with one element pushed at the end. -/
def insertRuleSorted (rs : List PolicyRule) (r : PolicyRule) : List PolicyRule :=
  match rs with
  | [] => [r]
  | x :: xs => if r.priority > x.priority then r :: x :: xs else x :: insertRuleSorted xs r

/-- Stable descending sort by priority (insertion sort — the same
ordering and tie behaviour as the source's stable `sort`). -/
def sortRulesDesc (rs : List PolicyRule) : List PolicyRule :=
  rs.foldl insertRuleSorted []

structure Policy where
  id : String
  name : String
  description : Option String := none
  rules : List PolicyRule
  defaultAction : PolicyAction
deriving DecidableEq

/-- The `Policy` constructor: `defaultAction || 'deny'` and
`[...rules].sort((a, b) => b.priority - a.priority)`. -/
def Policy.create (id name : String) (description : Option String)
    (defaultAction : Option PolicyAction) (rules : Option (List PolicyRule)) : Policy :=
  { id := id
    name := name
    description := description
    defaultAction := defaultAction.getD .deny
    rules := sortRulesDesc (rules.getD []) }

/-- `addRule`: push, then re-sort (stable, descending). -/
def Policy.addRule (p : Policy) (r : PolicyRule) : Policy :=
  { p with rules := sortRulesDesc (p.rules ++ [r]) }

structure PolicyEvaluationResult where
  allowed : Bool
  action : PolicyAction
  matchedRule : Option PolicyRule
  reason : String
deriving DecidableEq

/-- `rule.description || "Matched rule: ..."` (JavaScript `||`: an empty
description string also falls back). -/
def matchedReason (r : PolicyRule) : String :=
  match r.description with
  | some d => if d = "" then "Matched rule: " ++ r.name else d
  | none => "Matched rule: " ++ r.name

/-- `Policy.evaluate`: scan the (sorted) rule list for the first rule
whose condition matches; otherwise fall back to the default action. -/
def Policy.evaluate (rm : String → String → Bool) (p : Policy) (agent : Agent)
    (toolName : String) (params : CallParams) : PolicyEvaluationResult :=
  match p.rules.find? (fun r => evaluateCondition rm r.condition agent toolName params) with
  | some r =>
    { allowed := r.action = .allow
      action := r.action
      matchedRule := some r
      reason := matchedReason r }
  | none =>
    { allowed := p.defaultAction = .allow
      action := p.defaultAction
      matchedRule := none
      reason := "No matching rule found, using default policy" }

/-! ### C4 — highest-priority matching rule, ties by insertion order -/

/-- Sorted by descending priority. -/
def RulesSorted (rs : List PolicyRule) : Prop :=
  rs.Pairwise (fun a b => b.priority ≤ a.priority)

theorem mem_insertRuleSorted {rs : List PolicyRule} {r a : PolicyRule} :
    a ∈ insertRuleSorted rs r ↔ a = r ∨ a ∈ rs := by
  induction rs with
  | nil => simp [insertRuleSorted]
  | cons x xs ih =>
    simp only [insertRuleSorted]
    split
    · simp [or_comm, or_assoc, or_left_comm]
    · simp [ih]
      tauto

theorem insertRuleSorted_sorted {rs : List PolicyRule} (r : PolicyRule)
    (h : RulesSorted rs) : RulesSorted (insertRuleSorted rs r) := by
  induction rs with
  | nil => simp [insertRuleSorted, RulesSorted]
  | cons x xs ih =>
    rw [RulesSorted, List.pairwise_cons] at h
    obtain ⟨hx, hxs⟩ := h
    simp only [insertRuleSorted]
    split
    · rename_i hgt
      rw [RulesSorted, List.pairwise_cons]
      refine ⟨?_, List.Pairwise.cons hx hxs⟩
      intro y hy
      rcases List.mem_cons.mp hy with hy | hy
      · subst hy
        omega
      · have := hx y hy
        omega
    · rename_i hle
      rw [RulesSorted, List.pairwise_cons]
      refine ⟨?_, ih hxs⟩
      intro y hy
      rcases mem_insertRuleSorted.mp hy with hy | hy
      · subst hy
        omega
      · exact hx y hy

theorem sortRulesDesc_sorted (rs : List PolicyRule) : RulesSorted (sortRulesDesc rs) := by
  suffices h : ∀ (rs acc : List PolicyRule), RulesSorted acc
      → RulesSorted (rs.foldl insertRuleSorted acc) by
    exact h rs [] (by simp [RulesSorted])
  intro rs
  induction rs with
  | nil => exact fun acc h => h
  | cons x xs ih => exact fun acc h => ih _ (insertRuleSorted_sorted x h)

theorem insertRuleSorted_at_end {rs : List PolicyRule} {r : PolicyRule}
    (h : ∀ x ∈ rs, ¬r.priority > x.priority) : insertRuleSorted rs r = rs ++ [r] := by
  induction rs with
  | nil => rfl
  | cons x xs ih =>
    simp only [insertRuleSorted]
    rw [if_neg (h x (by simp)), ih (fun y hy => h y (by simp [hy]))]
    rfl

theorem sortRulesDesc_append (m l : List PolicyRule) :
    sortRulesDesc (m ++ l) = l.foldl insertRuleSorted (sortRulesDesc m) := by
  simp [sortRulesDesc, List.foldl_append]

theorem sortRulesDesc_of_sorted {rs : List PolicyRule} (h : RulesSorted rs) :
    sortRulesDesc rs = rs := by
  induction rs using List.reverseRecOn with
  | nil => rfl
  | append_singleton xs r ih =>
    rw [RulesSorted, List.pairwise_append] at h
    obtain ⟨hxs, _, hcross⟩ := h
    rw [sortRulesDesc_append, List.foldl_cons, List.foldl_nil, ih hxs,
      insertRuleSorted_at_end]
    intro x hx
    have := hcross x hx r (by simp)
    omega

theorem sortRulesDesc_idem (rs : List PolicyRule) :
    sortRulesDesc (sortRulesDesc rs) = sortRulesDesc rs :=
  sortRulesDesc_of_sorted (sortRulesDesc_sorted rs)

theorem find?_insertRuleSorted (q : PolicyRule → Bool) {rs : List PolicyRule}
    (r : PolicyRule) (hs : RulesSorted rs) :
    (insertRuleSorted rs r).find? q
      = if q r then
          (match rs.find? q with
           | none => some r
           | some b => if r.priority > b.priority then some r else some b)
        else rs.find? q := by
  induction rs with
  | nil =>
    by_cases hq : q r <;> simp [insertRuleSorted, List.find?, hq]
  | cons x xs ih =>
    rw [RulesSorted, List.pairwise_cons] at hs
    obtain ⟨hx, hxs⟩ := hs
    simp only [insertRuleSorted]
    split
    · rename_i hgt
      by_cases hq : q r
      · rw [List.find?_cons_of_pos _ hq, if_pos hq]
        cases hfind : List.find? q (x :: xs) with
        | none => rfl
        | some b =>
          have hb : b ∈ x :: xs := List.mem_of_find?_eq_some hfind
          have hble : b.priority ≤ x.priority := by
            rcases List.mem_cons.mp hb with hb | hb
            · subst hb
              omega
            · exact hx b hb
          show some r = if r.priority > b.priority then some r else some b
          rw [if_pos (by omega)]
      · rw [List.find?_cons_of_neg _ hq, if_neg hq]
    · rename_i hle
      by_cases hqx : q x
      · rw [List.find?_cons_of_pos _ hqx, List.find?_cons_of_pos _ hqx]
        by_cases hq : q r
        · rw [if_pos hq]
          show some x = if r.priority > x.priority then some r else some x
          rw [if_neg hle]
        · rw [if_neg hq]
      · rw [List.find?_cons_of_neg _ hqx, List.find?_cons_of_neg _ hqx, ih hxs]

/-- The rule the spec describes: among the matching rules, the one with
the highest priority, ties broken by insertion order (first inserted
wins) — computed directly on the insertion-ordered list. -/
def specPickRule (q : PolicyRule → Bool) (rs : List PolicyRule) : Option PolicyRule :=
  rs.foldl
    (fun best r =>
      if q r then
        match best with
        | none => some r
        | some b => if r.priority > b.priority then some r else some b
      else best)
    none

theorem specPickRule_append_single (q : PolicyRule → Bool) (rs : List PolicyRule)
    (r : PolicyRule) :
    specPickRule q (rs ++ [r])
      = if q r then
          (match specPickRule q rs with
           | none => some r
           | some b => if r.priority > b.priority then some r else some b)
        else specPickRule q rs := by
  simp only [specPickRule, List.foldl_append, List.foldl_cons, List.foldl_nil]

theorem find?_sortRulesDesc (q : PolicyRule → Bool) (rs : List PolicyRule) :
    (sortRulesDesc rs).find? q = specPickRule q rs := by
  induction rs using List.reverseRecOn with
  | nil => rfl
  | append_singleton xs r ih =>
    rw [sortRulesDesc_append, List.foldl_cons, List.foldl_nil,
      find?_insertRuleSorted q r (sortRulesDesc_sorted xs), ih,
      specPickRule_append_single]

theorem foldl_addRule_rules (rs : List PolicyRule) (p : Policy)
    (h : RulesSorted p.rules) :
    (rs.foldl Policy.addRule p).rules = sortRulesDesc (p.rules ++ rs) := by
  induction rs generalizing p with
  | nil => simp [sortRulesDesc_of_sorted h]
  | cons r rs ih =>
    rw [List.foldl_cons]
    have hsorted : RulesSorted (p.addRule r).rules := by
      simp only [Policy.addRule]
      exact sortRulesDesc_sorted _
    rw [ih _ hsorted]
    show sortRulesDesc (sortRulesDesc (p.rules ++ [r]) ++ rs) = _
    rw [sortRulesDesc_append, sortRulesDesc_idem, ← sortRulesDesc_append]
    simp

theorem foldl_addRule_defaultAction (rs : List PolicyRule) (p : Policy) :
    (rs.foldl Policy.addRule p).defaultAction = p.defaultAction := by
  induction rs generalizing p with
  | nil => rfl
  | cons r rs ih => rw [List.foldl_cons]; exact ih _

/-- C4: `evaluate` on a policy built by inserting `rs` in order (starting
from an empty rule set with configured default `dflt`) is a pure
function of its inputs that returns the outcome of the matching rule
with the highest priority, ties broken by insertion order (first
inserted wins), with `allowed` true exactly when that rule's action is
`allow`; when no rule matches it returns the policy's default action,
and a policy constructed without a default action defaults to `deny`. -/
theorem policy_evaluate_highest_priority_first_inserted
    (rm : String → String → Bool) (dflt : PolicyAction) (rs : List PolicyRule)
    (agent : Agent) (toolName : String) (params : CallParams) :
    (Policy.evaluate rm
        (rs.foldl Policy.addRule (Policy.create "p" "p" none (some dflt) none))
        agent toolName params
      = match specPickRule
            (fun r => evaluateCondition rm r.condition agent toolName params) rs with
        | some r =>
          { allowed := r.action = .allow
            action := r.action
            matchedRule := some r
            reason := matchedReason r }
        | none =>
          { allowed := dflt = .allow
            action := dflt
            matchedRule := none
            reason := "No matching rule found, using default policy" })
    ∧ ((Policy.create "p" "p" none none none).defaultAction = .deny)
    ∧ (∀ p : Policy, p.rules = []
        → Policy.evaluate rm p agent toolName params
          = { allowed := p.defaultAction = .allow
              action := p.defaultAction
              matchedRule := none
              reason := "No matching rule found, using default policy" }) := by
  refine ⟨?_, rfl, ?_⟩
  · have hrules : (rs.foldl Policy.addRule
        (Policy.create "p" "p" none (some dflt) none)).rules = sortRulesDesc rs := by
      rw [foldl_addRule_rules _ _ (by simp [Policy.create, sortRulesDesc, RulesSorted])]
      simp [Policy.create, sortRulesDesc]
    have hdflt := foldl_addRule_defaultAction rs (Policy.create "p" "p" none (some dflt) none)
    simp only [Policy.evaluate, hrules, hdflt, find?_sortRulesDesc]
    rfl
  · intro p hp
    simp [Policy.evaluate, hp, List.find?]

/-- Witness: the empty read-only-style policy with no default action
denies a concrete call. -/
theorem policy_evaluate_default_deny_witness :
    Policy.evaluate (fun _ _ => false) (Policy.create "p0" "p0" none none none)
        { id := "a1", role := "watcher" } "file:read" []
      = { allowed := ((Policy.create "p0" "p0" none none none).defaultAction = .allow)
          action := (Policy.create "p0" "p0" none none none).defaultAction
          matchedRule := none
          reason := "No matching rule found, using default policy" } :=
  (policy_evaluate_highest_priority_first_inserted (fun _ _ => false) .deny []
    { id := "a1", role := "watcher" } "file:read" []).2.2
    (Policy.create "p0" "p0" none none none) rfl

/-! ## WorkflowRunner (src/workflows/runner.ts)

A workflow is the ordered list of its steps; the collaborating plugin's
behaviour on step `i` is the environment's choice and is paired with the
step as a `PluginOutcome` (plugin missing from the registry, an
`execute` result `{success, data?, error?}`, or a thrown error).
`executeStep` converts each of these into a `StepResult` and never lets
an exception escape; database writes go to the external storage
collaborator and are not part of the modelled state. -/

structure WStep where
  plugin : String
  action : String
  config : List (String × String) := []
deriving DecidableEq

inductive PluginOutcome where
  /-- `this.plugins.get(step.plugin)` returned nothing. -/
  | missing
  /-- `plugin.execute` resolved with `{success, data?, error?}`. -/
  | result (success : Bool) (data : Option String) (error : Option String)
  /-- `plugin.execute` threw. -/
  | thrown (message : String)
deriving DecidableEq

inductive StepStatus where
  | completed
  | failed
  | skipped
deriving DecidableEq

structure StepResult where
  plugin : String
  action : String
  status : StepStatus
  result : Option String
  error : Option String
deriving DecidableEq

inductive RunStatus where
  | completed
  | failed
  | cancelled
deriving DecidableEq

/-- `executeStep` (durations aside, which are pure clock readings). -/
def executeStep (step : WStep) (out : PluginOutcome) : StepResult :=
  match out with
  | .missing =>
    { plugin := step.plugin
      action := step.action
      status := .failed
      result := none
      error := some ("Plugin not found: " ++ step.plugin) }
  | .result success data error =>
    { plugin := step.plugin
      action := step.action
      status := if success then .completed else .failed
      result := data
      error := error }
  | .thrown message =>
    { plugin := step.plugin
      action := step.action
      status := .failed
      result := none
      error := some message }

/-- The error-list entry `"${plugin}:${action} - ${stepResult.error}"`
(an absent error prints as `undefined`). -/
def stepErrorEntry (step : WStep) (sr : StepResult) : String :=
  step.plugin ++ ":" ++ step.action ++ " - " ++ sr.error.getD "undefined"

/-- The body of `WorkflowRunner.run`'s step loop: execute each step in
list order; a failed step appends its error entry; a failed step of the
`observe` plugin additionally sets the run status to `failed` and breaks
out of the loop.  Returns (step results, errors, status) — the status
starts as `completed` and is only changed by the critical-step rule. -/
def runnerRun : List (WStep × PluginOutcome) → List StepResult × List String × RunStatus
  | [] => ([], [], .completed)
  | (step, out) :: rest =>
    let sr := executeStep step out
    if sr.status = .failed then
      let entry := stepErrorEntry step sr
      if step.plugin = "observe" then
        ([sr], [entry], .failed)
      else
        let r := runnerRun rest
        (sr :: r.1, entry :: r.2.1, r.2.2)
    else
      let r := runnerRun rest
      (sr :: r.1, r.2.1, r.2.2)

/-- A step fails when its `StepResult` comes out `failed`. -/
def stepFails (item : WStep × PluginOutcome) : Bool :=
  (executeStep item.1 item.2).status = .failed

/-- A failing step of the critical `observe` plugin. -/
def failingObserve (item : WStep × PluginOutcome) : Bool :=
  item.1.plugin = "observe" && stepFails item

/-- The error entries the loop accumulates: one formatted entry per
failed step, in step order. -/
def expectedErrors (items : List (WStep × PluginOutcome)) : List String :=
  (items.filter stepFails).map (fun item => stepErrorEntry item.1 (executeStep item.1 item.2))

theorem runnerRun_no_observe_failure (items : List (WStep × PluginOutcome))
    (h : ∀ item ∈ items, failingObserve item = false) :
    runnerRun items
      = (items.map (fun item => executeStep item.1 item.2), expectedErrors items,
          .completed) := by
  induction items with
  | nil => rfl
  | cons item rest ih =>
    obtain ⟨step, out⟩ := item
    have hobs := h (step, out) (by simp)
    simp only [failingObserve, Bool.and_eq_false_imp, decide_eq_true_eq] at hobs
    simp only [runnerRun]
    by_cases hf : (executeStep step out).status = .failed
    · have hnotobs : ¬step.plugin = "observe" := by
        intro hh
        have := hobs hh
        simp [stepFails, hf] at this
      rw [if_pos hf, if_neg hnotobs, ih (fun i hi => h i (by simp [hi]))]
      simp [expectedErrors, List.filter_cons, stepFails, hf]
    · rw [if_neg hf, ih (fun i hi => h i (by simp [hi]))]
      simp [expectedErrors, List.filter_cons, stepFails, hf]

theorem runnerRun_observe_failure_aborts (pre post : List (WStep × PluginOutcome))
    (item : WStep × PluginOutcome)
    (hobs : failingObserve item = true)
    (hpre : ∀ i ∈ pre, failingObserve i = false) :
    runnerRun (pre ++ item :: post)
      = ((pre ++ [item]).map (fun i => executeStep i.1 i.2),
          expectedErrors (pre ++ [item]), .failed) := by
  induction pre with
  | nil =>
    obtain ⟨step, out⟩ := item
    simp only [failingObserve, Bool.and_eq_true, decide_eq_true_eq] at hobs
    obtain ⟨hplug, hfail⟩ := hobs
    simp only [stepFails, decide_eq_true_eq] at hfail
    simp only [List.nil_append, runnerRun, if_pos hfail, if_pos hplug]
    simp [expectedErrors, List.filter_cons, stepFails, hfail]
  | cons p pre ih =>
    obtain ⟨step, out⟩ := p
    have hp := hpre (step, out) (by simp)
    simp only [failingObserve, Bool.and_eq_false_imp, decide_eq_true_eq] at hp
    simp only [List.cons_append, runnerRun, List.append_eq]
    by_cases hf : (executeStep step out).status = .failed
    · have hnotobs : ¬step.plugin = "observe" := by
        intro hh
        have := hp hh
        simp [stepFails, hf] at this
      rw [if_pos hf, if_neg hnotobs, ih (fun i hi => hpre i (by simp [hi]))]
      simp [expectedErrors, List.filter_cons, stepFails, hf]
    · rw [if_neg hf, ih (fun i hi => hpre i (by simp [hi]))]
      simp [expectedErrors, List.filter_cons, stepFails, hf]

/-- C2: the critical-step rule of `WorkflowRunner.run`.  If no `observe`
step fails, every step is attempted in order (each failure recorded as a
`failed` `StepResult` with a formatted errors entry) and the run ends
with status `completed` — never `failed`.  If an `observe` step fails
(and no earlier observe failure cut the run), the returned step list is
exactly the steps up to and including the failing one, the formatted
entry for it is in the errors list, no later step is attempted, and the
status is `failed`. -/
theorem workflow_runner_critical_step_rule :
    (∀ items : List (WStep × PluginOutcome),
      (∀ item ∈ items, failingObserve item = false)
      → runnerRun items
          = (items.map (fun item => executeStep item.1 item.2), expectedErrors items,
              .completed))
    ∧ (∀ (pre post : List (WStep × PluginOutcome)) (item : WStep × PluginOutcome),
      failingObserve item = true
      → (∀ i ∈ pre, failingObserve i = false)
      → runnerRun (pre ++ item :: post)
          = ((pre ++ [item]).map (fun i => executeStep i.1 i.2),
              expectedErrors (pre ++ [item]), .failed)) :=
  ⟨runnerRun_no_observe_failure, runnerRun_observe_failure_aborts⟩

/-- Witness: a two-step workflow whose first step (`observe`) fails
produces status `failed`, exactly one step result, and the formatted
errors entry; a three-step workflow whose middle (non-observe) step
fails runs all three steps and completes. -/
theorem workflow_runner_critical_step_witness :
    runnerRun
        [(⟨"observe", "watch", []⟩, .result false none (some "rpc down")),
          (⟨"analyze", "score", []⟩, .result true (some "ok") none)]
      = ([⟨"observe", "watch", .failed, none, some "rpc down"⟩],
          ["observe:watch - rpc down"], .failed)
    ∧ runnerRun
        [(⟨"observe", "watch", []⟩, .result true (some "ok") none),
          (⟨"analyze", "score", []⟩, .thrown "llm error"),
          (⟨"act", "report", []⟩, .result true (some "ok") none)]
      = ([⟨"observe", "watch", .completed, some "ok", none⟩,
          ⟨"analyze", "score", .failed, none, some "llm error"⟩,
          ⟨"act", "report", .completed, some "ok", none⟩],
          ["analyze:score - llm error"], .completed) :=
  ⟨workflow_runner_critical_step_rule.2 [] [(⟨"analyze", "score", []⟩, .result true (some "ok") none)]
      (⟨"observe", "watch", []⟩, .result false none (some "rpc down"))
      (by decide) (by intro i hi; simp at hi),
    workflow_runner_critical_step_rule.1
      [(⟨"observe", "watch", []⟩, .result true (some "ok") none),
        (⟨"analyze", "score", []⟩, .thrown "llm error"),
        (⟨"act", "report", []⟩, .result true (some "ok") none)]
      (by decide)⟩

/-! ## Orchestrator (src/core/orchestrator/orchestrator.ts)

`runWorkflow` checks the single-flight flag first, then the workflow
registry, and only then allocates a run id and creates the run record.
Fresh identifiers (`nanoid`) are supplied by the environment (`newRunId`
and the per-step `taskIds`).  The source's `executePluginAction` is a
placeholder that always returns `{executed: true, ...}`, so the step
loop never throws, collects no errors, and the final status computed at
line 133 is `completed`. -/

inductive ORunStatus where
  | pending
  | running
  | completed
  | failed
  | cancelled
deriving DecidableEq

inductive OrchError where
  | alreadyRunning
  | workflowNotFound (id : String)
deriving DecidableEq

structure OWorkflow where
  steps : List WStep
deriving DecidableEq

structure OrchState where
  isRunning : Bool
  currentRunId : Option String
  /-- Run records persisted to storage: (run id, workflow id, status as
  of the last `runs.update`). -/
  runRecords : List (String × String × ORunStatus)
  tm : TaskManager
deriving DecidableEq

structure OrchRunResult where
  runId : String
  status : ORunStatus
  errors : List String
deriving DecidableEq

/-- `Orchestrator.executeStep`: create a task for the step, start it,
run the (always-successful placeholder) plugin action, and complete the
task.  Both transitions are legal because the task was just created
`pending`, so the manager's wrappers cannot throw here. -/
def Orchestrator.execStep (tm : TaskManager) (runId taskId : String) (step : WStep)
    (now : Nat) : TaskManager :=
  let created := tm.createTask
    { id := taskId
      runId := runId
      taskType := step.plugin ++ ":" ++ step.action
      input := []
      priority := some .normal } now
  let t := created.2
  let t' := ((t.start none now).2.complete [("result", "executed")] now).2
  { tasks := created.1.tasks.map (fun u => if u.id == t.id then t' else u) }

/-- `Orchestrator.runWorkflow`. -/
def Orchestrator.runWorkflow (workflows : List (String × OWorkflow)) (st : OrchState)
    (workflowId : String) (newRunId : String) (taskIds : Nat → String) (now : Nat) :
    Except OrchError OrchRunResult × OrchState :=
  if st.isRunning then
    (.error .alreadyRunning, st)
  else
    match workflows.find? (fun w => w.1 = workflowId) with
    | none => (.error (.workflowNotFound workflowId), st)
    | some wf =>
      let tm' := wf.2.steps.enum.foldl
        (fun tm istep => Orchestrator.execStep tm newRunId (taskIds istep.1) istep.2 now)
        st.tm
      (.ok { runId := newRunId, status := .completed, errors := [] },
        { isRunning := false
          currentRunId := none
          runRecords := st.runRecords ++ [(newRunId, workflowId, .completed)]
          tm := tm' })

/-- C3: single-flight.  While a run is active, `runWorkflow` fails
immediately with AlreadyRunning, creates no run record, and leaves the
orchestrator state exactly as it was (nothing is queued); the
WorkflowNotFound check is reached only when no run is active; and when
idle with a known workflow the call proceeds and persists exactly one
new run record. -/
theorem orchestrator_single_flight (workflows : List (String × OWorkflow))
    (st : OrchState) (wid rid : String) (taskIds : Nat → String) (now : Nat) :
    (st.isRunning = true
      → Orchestrator.runWorkflow workflows st wid rid taskIds now
          = (.error .alreadyRunning, st))
    ∧ (st.isRunning = false
      → workflows.find? (fun w => w.1 = wid) = none
      → Orchestrator.runWorkflow workflows st wid rid taskIds now
          = (.error (.workflowNotFound wid), st))
    ∧ (st.isRunning = false
      → ∀ wf, workflows.find? (fun w => w.1 = wid) = some wf
      → (Orchestrator.runWorkflow workflows st wid rid taskIds now).1
            = .ok { runId := rid, status := .completed, errors := [] }
        ∧ ((Orchestrator.runWorkflow workflows st wid rid taskIds now).2).runRecords
            = st.runRecords ++ [(rid, wid, .completed)]
        ∧ ((Orchestrator.runWorkflow workflows st wid rid taskIds now).2).isRunning
            = false) := by
  refine ⟨?_, ?_, ?_⟩
  · intro h
    simp [Orchestrator.runWorkflow, h]
  · intro h hnone
    simp [Orchestrator.runWorkflow, h, hnone]
  · intro h wf hsome
    simp [Orchestrator.runWorkflow, h, hsome]

/-- Witness: a busy orchestrator rejects a second `runWorkflow` with
AlreadyRunning and an unchanged state, even though the requested
workflow id is not registered (the not-found check is never reached). -/
theorem orchestrator_single_flight_witness :
    Orchestrator.runWorkflow []
        { isRunning := true, currentRunId := some "run-0", runRecords := [],
          tm := ⟨[]⟩ } "autopilot" "run-1" (fun i => toString i) 7
      = (.error .alreadyRunning,
          { isRunning := true, currentRunId := some "run-0", runRecords := [],
            tm := ⟨[]⟩ }) :=
  (orchestrator_single_flight []
    { isRunning := true, currentRunId := some "run-0", runRecords := [], tm := ⟨[]⟩ }
    "autopilot" "run-1" (fun i => toString i) 7).1 rfl

end DominionSwarm
